import Mathlib

/-!
Shallow embedding of the deepface-db record store (`src/app/main.py`).

The repository is a FastAPI + SQLAlchemy CRUD service over a SQLite
database with two tables, `users` and `embeddings`.  We model the
database as explicit lists of rows in insertion (rowid) order, and each
HTTP handler as a state transformer `Store → Except StoreError Result × Store`.

Modelling decisions, each tied to a line of the source:

* `User.date_added` is declared with
  `default=datetime.datetime.now().strftime(...)` (main.py lines 25-27).
  The call to `now()` is evaluated once, when the class body is executed
  at module import; the column default is therefore the *constant* string
  computed at process start.  We record that constant as
  `Store.importTime` and every created user receives it.  The handlers
  additionally receive the wall-clock time `now` of the request so that
  claims about "the moment of creation" can be stated; the code never
  reads it.
* Timestamps are modelled as `Nat`.
* `id` columns are SQLite `INTEGER PRIMARY KEY` rowids: a fresh insert
  receives `max(existing ids) + 1` (and `1` on an empty table).
* `email` and `phone` carry `unique=True` (main.py lines 22-23): an
  INSERT or UPDATE whose committed row would duplicate another row's
  value fails with an integrity error and the transaction is rolled
  back, leaving the store unchanged.  We surface this as
  `StoreError.ConstraintViolation`.
* `embedding_vector` is declared as a BLOB column (main.py line 53) but
  the handlers assign the request's Python `list[float]` to it
  (main.py lines 96, 164-165).  The sqlite3 driver cannot bind a list
  (the BLOB bind wraps the value in a memoryview, which rejects a list
  of any length), so an INSERT of an embedding, and an UPDATE whose
  session modified the vector attribute, raise at commit and roll back,
  leaving the store unchanged; we surface this as `StoreError.BindError`.
  An UPDATE that modified only `user_id` binds an integer and commits.
  The foreign key on `Embedding.user_id` is not enforced (SQLite
  default) and adds no failure case.
* `update_user` / `update_embedding` iterate over the request fields and
  execute `setattr(db_user, var, value) if value else None`
  (main.py lines 148-149, 164-165): a field is overwritten only when the
  provided value is truthy (non-empty string, non-zero integer,
  non-empty list).
* `read_users` / `read_embeddings` take `skip`/`limit` query parameters
  defaulting to 0 and 100 (main.py lines 119-136); an omitted parameter
  is modelled as `none`.
-/

/-- A row of the `users` table (main.py lines 18-27). -/
structure UserRecord where
  id : Nat
  name : String
  email : String
  phone : String
  birthday : String
  date_added : Nat
deriving DecidableEq, Repr

/-- A row of the `embeddings` table (main.py lines 49-53). -/
structure EmbeddingRecord where
  id : Nat
  user_id : Int
  embedding_vector : List Float
deriving Repr

/-- Body of `POST /users/` and `PUT /users/{id}` (`UserCreate`, main.py lines 35-39). -/
structure UserCreate where
  name : String
  email : String
  phone : String
  birthday : String
deriving DecidableEq, Repr

/-- Body of `POST /embeddings/` and `PUT /embeddings/{id}`
(`EmbeddingCreate`, main.py lines 56-58). -/
structure EmbeddingCreate where
  user_id : Int
  embedding_vector : List Float
deriving Repr

/-- Failure outcomes a Record Store operation can signal: the 404 raised
by the handlers, the integrity error raised by the unique columns, and
the driver error raised when a statement parameter cannot be bound — the
sqlite3 error a Python list assigned to the BLOB `embedding_vector`
column provokes at commit. -/
inductive StoreError where
  | NotFound
  | ConstraintViolation
  | BindError
deriving DecidableEq, Repr

/-- The persistent state: both tables in insertion (rowid) order, plus
the constant timestamp captured when the module was imported, which the
`date_added` column default carries (main.py lines 25-27). -/
structure Store where
  importTime : Nat
  users : List UserRecord
  embeddings : List EmbeddingRecord
deriving Repr

/-- The empty database, as created on process start by
`Base.metadata.create_all` (main.py line 31). -/
def emptyStore (importTime : Nat) : Store :=
  { importTime := importTime, users := [], embeddings := [] }

/-- Rowid SQLite assigns to a fresh `users` insert: one more than the
largest existing id. -/
def nextUserId (s : Store) : Nat :=
  (s.users.foldr (fun u m => Nat.max u.id m) 0) + 1

/-- Handler for `POST /users/` (`create_user`, main.py lines 79-88): build a row from
the request, insert it, commit.  The commit fails with an integrity
error when `email` or `phone` duplicates an existing row (unique
columns, main.py lines 22-23); the rollback leaves the store unchanged.
`now` is the wall-clock time of the request; the code does not use it —
the `date_added` default is the constant `s.importTime`. -/
def create_user (req : UserCreate) (now : Nat) (s : Store) :
    Except StoreError UserRecord × Store :=
  let _ := now
  if s.users.any (fun u => u.email == req.email || u.phone == req.phone) then
    (.error .ConstraintViolation, s)
  else
    let u : UserRecord :=
      { id := nextUserId s, name := req.name, email := req.email,
        phone := req.phone, birthday := req.birthday,
        date_added := s.importTime }
    (.ok u, { s with users := s.users ++ [u] })

/-- Handler for `POST /embeddings/` (`create_embedding`, main.py lines 91-100):
build a row from the request and commit.  The INSERT always binds the
request's Python list to the BLOB `embedding_vector` column, which the
sqlite3 driver rejects for a list of any length, so the commit always
raises and rolls back: no embedding row is ever persisted through this
endpoint. -/
def create_embedding (req : EmbeddingCreate) (s : Store) :
    Except StoreError EmbeddingRecord × Store :=
  let _ := req
  (.error .BindError, s)

/-- Handler for `GET /users/{user_id}` (`read_user`, main.py lines 103-108):
`query(User).filter(User.id == user_id).first()`, 404 when absent. -/
def read_user (user_id : Nat) (s : Store) :
    Except StoreError UserRecord × Store :=
  match s.users.find? (fun u => u.id == user_id) with
  | none => (.error .NotFound, s)
  | some u => (.ok u, s)

/-- Handler for `GET /embeddings/{embedding_id}` (`read_embedding`, main.py lines 111-116). -/
def read_embedding (embedding_id : Nat) (s : Store) :
    Except StoreError EmbeddingRecord × Store :=
  match s.embeddings.find? (fun e => e.id == embedding_id) with
  | none => (.error .NotFound, s)
  | some e => (.ok e, s)

/-- Handler for `GET /users/` (`read_users`, main.py lines 119-126):
`query(User).offset(skip).limit(limit).all()` in rowid order; the query
parameters default to `skip=0, limit=100` when omitted. -/
def read_users (skip limit : Option Nat) (s : Store) :
    List UserRecord × Store :=
  ((s.users.drop (skip.getD 0)).take (limit.getD 100), s)

/-- Handler for `GET /embeddings/` (`read_embeddings`, main.py lines 129-136). -/
def read_embeddings (skip limit : Option Nat) (s : Store) :
    List EmbeddingRecord × Store :=
  ((s.embeddings.drop (skip.getD 0)).take (limit.getD 100), s)

/-- The loop body of `update_user` (main.py lines 148-149):
`setattr(db_user, var, value) if value else None` for each of the four
request fields — a field is overwritten only when the provided value is
truthy, i.e. a non-empty string.  `id` and `date_added` are not request
fields and are untouched. -/
def applyUserUpdate (u : UserRecord) (req : UserCreate) : UserRecord :=
  { u with
    name := if req.name == "" then u.name else req.name,
    email := if req.email == "" then u.email else req.email,
    phone := if req.phone == "" then u.phone else req.phone,
    birthday := if req.birthday == "" then u.birthday else req.birthday }

/-- The loop body of `update_embedding` (main.py lines 164-165): `user_id`
is overwritten only when non-zero, `embedding_vector` only when
non-empty (Python truthiness of `int` and `list`). -/
def applyEmbeddingUpdate (e : EmbeddingRecord) (req : EmbeddingCreate) :
    EmbeddingRecord :=
  { e with
    user_id := if req.user_id == 0 then e.user_id else req.user_id,
    embedding_vector :=
      if req.embedding_vector.isEmpty then e.embedding_vector
      else req.embedding_vector }

/-- Handler for `PUT /users/{user_id}` (`update_user`, main.py lines 139-152): load
by id (404 when absent), apply the truthy-only overwrite, commit.  The
commit fails and rolls back when the updated row's `email` or `phone`
duplicates a *different* row (unique columns). -/
def update_user (user_id : Nat) (req : UserCreate) (s : Store) :
    Except StoreError UserRecord × Store :=
  match s.users.find? (fun u => u.id == user_id) with
  | none => (.error .NotFound, s)
  | some u =>
    let u2 := applyUserUpdate u req
    if s.users.any (fun v =>
        v.id != u.id && (v.email == u2.email || v.phone == u2.phone)) then
      (.error .ConstraintViolation, s)
    else
      (.ok u2,
       { s with users := s.users.map (fun v => if v.id == user_id then u2 else v) })

/-- Handler for `PUT /embeddings/{embedding_id}` (`update_embedding`, main.py
lines 155-168): load by id (404 when absent), apply the truthy-only
setattr loop in the session, commit.  When the request's vector is
truthy (non-empty) the loop assigned the Python list to the BLOB column,
so the UPDATE fails to bind it at commit and rolls back, leaving the
store unchanged; when the vector is falsy (empty) the attribute was
never modified, only `user_id` (an integer, which binds fine) may have
been, and the commit succeeds.  No unique constraint exists on
embeddings. -/
def update_embedding (embedding_id : Nat) (req : EmbeddingCreate) (s : Store) :
    Except StoreError EmbeddingRecord × Store :=
  match s.embeddings.find? (fun e => e.id == embedding_id) with
  | none => (.error .NotFound, s)
  | some e =>
    if req.embedding_vector.isEmpty then
      let e2 := applyEmbeddingUpdate e req
      (.ok e2,
       { s with embeddings :=
          s.embeddings.map (fun f => if f.id == embedding_id then e2 else f) })
    else
      (.error .BindError, s)

/-- Handler for `DELETE /users/{user_id}` (`delete_user`, main.py lines 171-178):
load by id (404 when absent), delete the row, return the record as
loaded. -/
def delete_user (user_id : Nat) (s : Store) :
    Except StoreError UserRecord × Store :=
  match s.users.find? (fun u => u.id == user_id) with
  | none => (.error .NotFound, s)
  | some u =>
    (.ok u, { s with users := s.users.filter (fun v => v.id != user_id) })

/-- Handler for `DELETE /embeddings/{embedding_id}` (`delete_embedding`, main.py
lines 181-188). -/
def delete_embedding (embedding_id : Nat) (s : Store) :
    Except StoreError EmbeddingRecord × Store :=
  match s.embeddings.find? (fun e => e.id == embedding_id) with
  | none => (.error .NotFound, s)
  | some e =>
    (.ok e,
     { s with embeddings := s.embeddings.filter (fun f => f.id != embedding_id) })

/-- Uniqueness state the storage layer maintains on the `users` table:
the primary key (main.py line 20) keeps ids distinct, and the two
`unique=True` columns (main.py lines 22-23) keep emails and phones
distinct. -/
def usersInv (l : List UserRecord) : Prop :=
  l.Pairwise (fun a b => a.id ≠ b.id ∧ a.email ≠ b.email ∧ a.phone ≠ b.phone)

/-- The storage-layer invariant of a whole store. -/
def storeInv (s : Store) : Prop :=
  usersInv s.users

/-! ### Helper lemmas about rowid generation and lookup -/

/-- Any element's key is bounded by the folded running maximum. -/
theorem key_le_foldr_max {α : Type} (f : α → Nat) (l : List α) (a : α)
    (h : a ∈ l) : f a ≤ l.foldr (fun x m => Nat.max (f x) m) 0 := by
  induction l with
  | nil => cases h
  | cons b t ih =>
    rcases List.mem_cons.mp h with h | h
    · subst h; exact Nat.le_max_left _ _
    · exact Nat.le_trans (ih h) (Nat.le_max_right _ _)

/-- The rowid of a fresh user insert differs from every stored user's id. -/
theorem nextUserId_fresh (s : Store) (u : UserRecord) (h : u ∈ s.users) :
    u.id ≠ nextUserId s :=
  Nat.ne_of_lt (Nat.lt_succ_of_le (key_le_foldr_max (fun v => v.id) s.users u h))

/-- No stored user already carries the fresh rowid. -/
theorem find?_users_nextId (s : Store) :
    s.users.find? (fun u => u.id == nextUserId s) = none := by
  rw [List.find?_eq_none]
  intro x hx
  simpa using nextUserId_fresh s x hx

/-- Looking up an appended row whose key misses the whole prefix finds
exactly the appended row. -/
theorem find?_append_single {α : Type} (p : α → Bool) (l : List α) (a : α)
    (hl : l.find? p = none) (ha : p a = true) :
    (l ++ [a]).find? p = some a := by
  rw [List.find?_append, hl, Option.none_or, List.find?_cons_of_pos _ ha]

/-- Replacing, by key, the row a successful lookup found makes the next
lookup of that key return the replacement. -/
theorem find?_map_replace {α : Type} (p : α → Bool) (r : α → α) (a2 : α)
    (hr : ∀ x, p x = true → r x = a2)
    (hk : ∀ x, p (r x) = p x) :
    ∀ (l : List α), (l.find? p).isSome →
      (l.map r).find? p = some a2 := by
  intro l
  induction l with
  | nil => intro h; simp [List.find?] at h
  | cons b t ih =>
    intro h
    cases hb : p b with
    | true =>
      rw [List.map_cons, List.find?_cons_of_pos _ (by rw [hk, hb]), hr b hb]
    | false =>
      rw [List.find?_cons_of_neg _ (by simp [hb])] at h
      rw [List.map_cons, List.find?_cons_of_neg _ (by simp [hk, hb]), ih h]

/-! ### Claim theorems -/

/-- C9: for every store state and id, deleting a User (whether it
succeeds or reports not-found) leaves every Embedding record unchanged,
including Embeddings whose `user_id` references the deleted User —
`delete_user` touches only the `users` table, and no cascade is
configured on the foreign key. -/
theorem delete_user_preserves_embeddings (user_id : Nat) (s : Store) :
    (delete_user user_id s).2.embeddings = s.embeddings := by
  unfold delete_user
  cases s.users.find? (fun u => u.id == user_id) <;> rfl

/-- C10: the four read operations — point lookup and bounded listing,
for both entity kinds — return their result without modifying the store,
whether they succeed or report not-found: the state component of each
result is the input state. -/
theorem reads_leave_store_unchanged (i j : Nat) (sk li : Option Nat) (s : Store) :
    (read_user i s).2 = s ∧ (read_embedding j s).2 = s ∧
      (read_users sk li s).2 = s ∧ (read_embeddings sk li s).2 = s := by
  refine ⟨?_, ?_, rfl, rfl⟩
  · unfold read_user
    cases s.users.find? (fun u => u.id == i) <;> rfl
  · unfold read_embedding
    cases s.embeddings.find? (fun e => e.id == j) <;> rfl

/-- C2: the claim says `date_added` is generated at the moment of each
creation; in the code the column default is `datetime.datetime.now().strftime(...)`
evaluated once at module import, so every created user receives the
process-start constant, not the request-time clock.  Concretely: with
import-time 0, a user created when the clock reads 5 carries
`date_added = 0`, not 5. -/
theorem create_user_date_added_is_import_constant :
    ∃ u s2,
      create_user (UserCreate.mk "Test User" "test@example.com" "123" "2000-01-01") 5
          (emptyStore 0) = (.ok u, s2) ∧
      u.date_added = 0 ∧ u.date_added ≠ 5 := by
  refine ⟨_, _, rfl, rfl, by decide⟩

/-- C8: the claim says the supplied vector is persisted opaquely and
read back intact; in the code every `POST /embeddings/` commits the
request's Python list into the BLOB `embedding_vector` column, which the
sqlite3 driver cannot bind, so the insert always raises, rolls back, and
persists nothing — for every request (any `user_id`, any vector of any
length) and every store state, the create fails with the bind error and
leaves the store unchanged, so the claimed roundtrip can never happen. -/
theorem create_embedding_never_persists (req : EmbeddingCreate) (s : Store) :
    create_embedding req s = (.error .BindError, s) := rfl

/-- C6: when a user Create succeeds, a GetByID with the id of the
returned record, performed on the resulting store with no intervening
operations, returns exactly the record Create returned. -/
theorem read_user_after_create (req : UserCreate) (now : Nat) (s : Store)
    (u : UserRecord) (s2 : Store)
    (h : create_user req now s = (.ok u, s2)) :
    read_user u.id s2 = (.ok u, s2) := by
  unfold create_user at h
  cases hc : s.users.any (fun v => v.email == req.email || v.phone == req.phone) with
  | true => rw [if_pos (by simp [hc])] at h; cases h
  | false =>
    rw [if_neg (by simp [hc])] at h
    obtain ⟨h1, h2⟩ := Prod.mk.injEq .. ▸ h
    obtain rfl := Except.ok.inj h1
    subst h2
    unfold read_user
    rw [find?_append_single _ _ _ (find?_users_nextId s) (by simp)]

/-- Closed instance of `read_user_after_create`: creating a user in the
empty store and immediately reading id 1 back returns that same record. -/
theorem read_user_after_create_witness :
    read_user 1 (Store.mk 3 [UserRecord.mk 1 "a" "e" "p" "b" 3] []) =
      (.ok (UserRecord.mk 1 "a" "e" "p" "b" 3),
       Store.mk 3 [UserRecord.mk 1 "a" "e" "p" "b" 3] []) :=
  read_user_after_create (UserCreate.mk "a" "e" "p" "b") 7 (emptyStore 3) _ _ rfl

/-- Unfolding `update_user` once the lookup has succeeded. -/
theorem update_user_found (uid : Nat) (req : UserCreate) (s : Store)
    (u : UserRecord) (hfind : s.users.find? (fun v => v.id == uid) = some u) :
    update_user uid req s =
      (if s.users.any (fun v => v.id != u.id &&
          (v.email == (applyUserUpdate u req).email ||
           v.phone == (applyUserUpdate u req).phone)) then
        (.error .ConstraintViolation, s)
      else
        (.ok (applyUserUpdate u req),
         { s with users :=
            s.users.map (fun v => if v.id == uid then applyUserUpdate u req else v) })) := by
  unfold update_user
  rw [hfind]

/-- Unfolding `update_embedding` once the lookup has succeeded: the
commit goes through only when the request's vector was falsy (empty) and
hence never assigned; a truthy vector was assigned to the BLOB column
and fails to bind at commit. -/
theorem update_embedding_found (eid : Nat) (req : EmbeddingCreate) (s : Store)
    (e : EmbeddingRecord)
    (hfind : s.embeddings.find? (fun f => f.id == eid) = some e) :
    update_embedding eid req s =
      (if req.embedding_vector.isEmpty then
        (.ok (applyEmbeddingUpdate e req),
         { s with embeddings :=
            s.embeddings.map (fun f => if f.id == eid then applyEmbeddingUpdate e req else f) })
      else (.error .BindError, s)) := by
  unfold update_embedding
  rw [hfind]

/-- A lookup never finds anything in a list filtered to the complement
of the lookup predicate. -/
theorem find?_filter_compl {α : Type} (p q : α → Bool) (l : List α)
    (hq : ∀ x, p x = true → q x = false) :
    (l.filter q).find? p = none := by
  rw [List.find?_eq_none]
  intro x hx hpx
  have h1 := (List.mem_filter.mp hx).2
  rw [hq x hpx] at h1
  cases h1

/-- After replacing the found user row by its truthy-only update, the
same id looks up the updated row. -/
theorem find?_update_users (uid : Nat) (req : UserCreate) (l : List UserRecord)
    (u : UserRecord) (hfind : l.find? (fun v => v.id == uid) = some u) :
    (l.map (fun v => if v.id == uid then applyUserUpdate u req else v)).find?
        (fun v => v.id == uid) = some (applyUserUpdate u req) := by
  have hid : (applyUserUpdate u req).id = uid := by
    simpa [applyUserUpdate] using List.find?_some hfind
  apply find?_map_replace
  · intro x hx; rw [if_pos hx]
  · intro x
    cases hx : x.id == uid with
    | true => simp [hid]
    | false => rw [if_neg (by simp)]; exact hx
  · rw [hfind]; rfl

/-- After replacing the found embedding row by its truthy-only update,
the same id looks up the updated row. -/
theorem find?_update_embeddings (eid : Nat) (req : EmbeddingCreate)
    (l : List EmbeddingRecord) (e : EmbeddingRecord)
    (hfind : l.find? (fun f => f.id == eid) = some e) :
    (l.map (fun f => if f.id == eid then applyEmbeddingUpdate e req else f)).find?
        (fun f => f.id == eid) = some (applyEmbeddingUpdate e req) := by
  have hid : (applyEmbeddingUpdate e req).id = eid := by
    simpa [applyEmbeddingUpdate] using List.find?_some hfind
  apply find?_map_replace
  · intro x hx; rw [if_pos hx]
  · intro x
    cases hx : x.id == eid with
    | true => simp [hid]
    | false => rw [if_neg (by simp)]; exact hx
  · rw [hfind]; rfl

/-- Point lookup on a store whose table contains the id. -/
theorem read_user_eq_found (i : Nat) (s : Store) (u : UserRecord)
    (h : s.users.find? (fun v => v.id == i) = some u) :
    read_user i s = (.ok u, s) := by
  unfold read_user; rw [h]

/-- Point lookup on a store whose table misses the id. -/
theorem read_user_eq_none (i : Nat) (s : Store)
    (h : s.users.find? (fun v => v.id == i) = none) :
    read_user i s = (.error .NotFound, s) := by
  unfold read_user; rw [h]

/-- Embedding point lookup on a store whose table contains the id. -/
theorem read_embedding_eq_found (i : Nat) (s : Store) (e : EmbeddingRecord)
    (h : s.embeddings.find? (fun f => f.id == i) = some e) :
    read_embedding i s = (.ok e, s) := by
  unfold read_embedding; rw [h]

/-- Embedding point lookup on a store whose table misses the id. -/
theorem read_embedding_eq_none (i : Nat) (s : Store)
    (h : s.embeddings.find? (fun f => f.id == i) = none) :
    read_embedding i s = (.error .NotFound, s) := by
  unfold read_embedding; rw [h]

/-- Unfolding `delete_user` once the lookup has succeeded. -/
theorem delete_user_found (uid : Nat) (s : Store) (u : UserRecord)
    (hfind : s.users.find? (fun v => v.id == uid) = some u) :
    delete_user uid s =
      (.ok u, { s with users := s.users.filter (fun v => v.id != uid) }) := by
  unfold delete_user; rw [hfind]

/-- Unfolding `delete_embedding` once the lookup has succeeded. -/
theorem delete_embedding_found (eid : Nat) (s : Store) (e : EmbeddingRecord)
    (hfind : s.embeddings.find? (fun f => f.id == eid) = some e) :
    delete_embedding eid s =
      (.ok e, { s with embeddings := s.embeddings.filter (fun f => f.id != eid) }) := by
  unfold delete_embedding; rw [hfind]

/-- C1 (amended): a successful Update overwrites a stored User field
only when the provided value is truthy — an empty string leaves the
previously stored value unchanged, a non-empty one overwrites — and the
same holds for the Embedding `user_id` (zero is skipped).  For the
`embedding_vector` field, however, a truthy (non-empty) provided value
never overwrites: the session assigned the Python list to the BLOB
column, so the commit fails to bind it and rolls back — the update
errors and the store is unchanged; hence any update that completes
leaves the stored vector exactly as it was.  In every successful case
the resulting record is both returned and stored under the same id. -/
theorem update_truthy_only_overwrite :
    (∀ (uid : Nat) (req : UserCreate) (s : Store) (u r : UserRecord) (s2 : Store),
      s.users.find? (fun v => v.id == uid) = some u →
      update_user uid req s = (.ok r, s2) →
      r.name = (if req.name = "" then u.name else req.name) ∧
      r.email = (if req.email = "" then u.email else req.email) ∧
      r.phone = (if req.phone = "" then u.phone else req.phone) ∧
      r.birthday = (if req.birthday = "" then u.birthday else req.birthday) ∧
      read_user uid s2 = (.ok r, s2)) ∧
    (∀ (eid : Nat) (req : EmbeddingCreate) (s : Store) (e r : EmbeddingRecord)
        (s2 : Store),
      s.embeddings.find? (fun f => f.id == eid) = some e →
      update_embedding eid req s = (.ok r, s2) →
      r.user_id = (if req.user_id = 0 then e.user_id else req.user_id) ∧
      r.embedding_vector = e.embedding_vector ∧
      read_embedding eid s2 = (.ok r, s2)) ∧
    (∀ (eid : Nat) (req : EmbeddingCreate) (s : Store) (e : EmbeddingRecord),
      s.embeddings.find? (fun f => f.id == eid) = some e →
      req.embedding_vector.isEmpty = false →
      update_embedding eid req s = (.error .BindError, s)) := by
  refine ⟨?_, ?_, ?_⟩
  · intro uid req s u r s2 hfind hupd
    rw [update_user_found uid req s u hfind] at hupd
    cases hc : s.users.any (fun v => v.id != u.id &&
        (v.email == (applyUserUpdate u req).email ||
         v.phone == (applyUserUpdate u req).phone)) with
    | true => rw [if_pos hc] at hupd; simp at hupd
    | false =>
      rw [if_neg (by simp [hc])] at hupd
      injection hupd with h1 h2
      obtain rfl := Except.ok.inj h1
      subst h2
      refine ⟨by simp [applyUserUpdate], by simp [applyUserUpdate],
        by simp [applyUserUpdate], by simp [applyUserUpdate], ?_⟩
      exact read_user_eq_found _ _ _ (find?_update_users uid req s.users u hfind)
  · intro eid req s e r s2 hfind hupd
    rw [update_embedding_found eid req s e hfind] at hupd
    cases hv : req.embedding_vector.isEmpty with
    | false => rw [if_neg (by simp [hv])] at hupd; simp at hupd
    | true =>
      rw [if_pos hv] at hupd
      injection hupd with h1 h2
      obtain rfl := Except.ok.inj h1
      subst h2
      refine ⟨by simp [applyEmbeddingUpdate], ?_, ?_⟩
      · simp [applyEmbeddingUpdate, hv]
      · exact read_embedding_eq_found _ _ _
          (find?_update_embeddings eid req s.embeddings e hfind)
  · intro eid req s e hfind hv
    rw [update_embedding_found eid req s e hfind, if_neg (by simp [hv])]

/-- Closed instance of `update_truthy_only_overwrite`: update of user 1
with empty `name` and `birthday` keeps the stored "n" and "b" while the
truthy email and phone overwrite, and the stored row agrees; update of
embedding 1 with `user_id = 0` and an empty vector changes nothing; and
an update of embedding 2 with a truthy (non-empty) vector fails with the
bind error, leaving the store unchanged. -/
theorem update_truthy_only_overwrite_witness :
    ((UserRecord.mk 1 "n" "e2" "p2" "b" 0).name = "n" ∧
     (UserRecord.mk 1 "n" "e2" "p2" "b" 0).email = "e2" ∧
     read_user 1 (Store.mk 0 [UserRecord.mk 1 "n" "e2" "p2" "b" 0] []) =
       (.ok (UserRecord.mk 1 "n" "e2" "p2" "b" 0),
        Store.mk 0 [UserRecord.mk 1 "n" "e2" "p2" "b" 0] [])) ∧
    ((EmbeddingRecord.mk 1 7 [2.5]).user_id = 7 ∧
     (EmbeddingRecord.mk 1 7 [2.5]).embedding_vector = [2.5]) ∧
    update_embedding 2 (EmbeddingCreate.mk 0 [1.5, 2.5])
        (Store.mk 0 [] [EmbeddingRecord.mk 2 5 []]) =
      (.error .BindError, Store.mk 0 [] [EmbeddingRecord.mk 2 5 []]) := by
  refine ⟨?_, ?_, ?_⟩
  · obtain ⟨h1, h2, h3, h4, h5⟩ :=
      update_truthy_only_overwrite.1 1 (UserCreate.mk "" "e2" "p2" "")
        (Store.mk 0 [UserRecord.mk 1 "n" "e" "p" "b" 0] [])
        (UserRecord.mk 1 "n" "e" "p" "b" 0)
        (UserRecord.mk 1 "n" "e2" "p2" "b" 0)
        (Store.mk 0 [UserRecord.mk 1 "n" "e2" "p2" "b" 0] [])
        rfl rfl
    refine ⟨?_, ?_, h5⟩
    · rw [h1]; rfl
    · rw [h2]; rfl
  · obtain ⟨h1, h2, h3⟩ :=
      update_truthy_only_overwrite.2.1 1 (EmbeddingCreate.mk 0 [])
        (Store.mk 0 [] [EmbeddingRecord.mk 1 7 [2.5]])
        (EmbeddingRecord.mk 1 7 [2.5])
        (EmbeddingRecord.mk 1 7 [2.5])
        (Store.mk 0 [] [EmbeddingRecord.mk 1 7 [2.5]])
        rfl rfl
    exact ⟨by rw [h1]; simp, by rw [h2]⟩
  · exact update_truthy_only_overwrite.2.2 2 (EmbeddingCreate.mk 0 [1.5, 2.5])
      (Store.mk 0 [] [EmbeddingRecord.mk 2 5 []])
      (EmbeddingRecord.mk 2 5 []) rfl rfl

/-- C1 counterexample to the claim as stated: the claim says a non-empty
(truthy) provided value overwrites the stored field, but updating
embedding 1 (stored vector empty) with the truthy vector `[2.5]` fails
with the bind error and leaves the store unchanged — reading the record
back still yields the old empty vector, which differs from the provided
`[2.5]`. -/
theorem update_truthy_only_overwrite_counterexample :
    update_embedding 1 (EmbeddingCreate.mk 0 [2.5])
        (Store.mk 0 [] [EmbeddingRecord.mk 1 7 []]) =
      (.error .BindError, Store.mk 0 [] [EmbeddingRecord.mk 1 7 []]) ∧
    read_embedding 1 (Store.mk 0 [] [EmbeddingRecord.mk 1 7 []]) =
      (.ok (EmbeddingRecord.mk 1 7 []), Store.mk 0 [] [EmbeddingRecord.mk 1 7 []]) ∧
    ([] : List Float) ≠ [2.5] :=
  ⟨rfl, rfl, by simp⟩

/-- C3: creating a user whose email or phone collides with any existing
user always fails with a constraint violation and leaves the store
unchanged; creating a user whose email and phone are both fresh always
succeeds. -/
theorem create_user_unique_constraint (req : UserCreate) (now : Nat) (s : Store) :
    ((∃ u ∈ s.users, u.email = req.email ∨ u.phone = req.phone) →
      create_user req now s = (.error .ConstraintViolation, s)) ∧
    ((∀ u ∈ s.users, u.email ≠ req.email ∧ u.phone ≠ req.phone) →
      ∃ u s2, create_user req now s = (.ok u, s2)) := by
  constructor
  · rintro ⟨u, hu, hcol⟩
    unfold create_user
    rw [if_pos]
    rw [List.any_eq_true]
    refine ⟨u, hu, ?_⟩
    simpa using hcol
  · intro hfresh
    unfold create_user
    rw [if_neg]
    · exact ⟨_, _, rfl⟩
    · simp only [List.any_eq_true, Bool.or_eq_true, beq_iff_eq, not_exists]
      rintro x ⟨hx, h | h⟩
      · exact (hfresh x hx).1 h
      · exact (hfresh x hx).2 h

/-- Closed instance of `create_user_unique_constraint`: in a store
holding a user with email "e" and phone "p", creating with the same
email fails with a constraint violation, and creating with a fresh
email and phone succeeds. -/
theorem create_user_unique_constraint_witness :
    create_user (UserCreate.mk "x" "e" "q" "b") 0
        (Store.mk 0 [UserRecord.mk 1 "n" "e" "p" "b" 0] []) =
      (.error .ConstraintViolation,
       Store.mk 0 [UserRecord.mk 1 "n" "e" "p" "b" 0] []) ∧
    ∃ u s2, create_user (UserCreate.mk "x" "e2" "q" "b") 0
        (Store.mk 0 [UserRecord.mk 1 "n" "e" "p" "b" 0] []) = (.ok u, s2) := by
  constructor
  · exact (create_user_unique_constraint (UserCreate.mk "x" "e" "q" "b") 0
      (Store.mk 0 [UserRecord.mk 1 "n" "e" "p" "b" 0] [])).1
      ⟨UserRecord.mk 1 "n" "e" "p" "b" 0, by simp, Or.inl rfl⟩
  · exact (create_user_unique_constraint (UserCreate.mk "x" "e2" "q" "b") 0
      (Store.mk 0 [UserRecord.mk 1 "n" "e" "p" "b" 0] [])).2 (by decide)

/-- C5: for either entity kind, Delete(id) fails with NotFound and
changes nothing when no record of that kind has the id; otherwise it
returns the record exactly as the lookup loaded it immediately before
deletion, and a GetByID of the same id on the resulting store reports
not-found. -/
theorem delete_semantics :
    (∀ (uid : Nat) (s : Store), (∀ v ∈ s.users, v.id ≠ uid) →
      delete_user uid s = (.error .NotFound, s)) ∧
    (∀ (uid : Nat) (s : Store) (u : UserRecord),
      s.users.find? (fun v => v.id == uid) = some u →
      (delete_user uid s).1 = .ok u ∧
      read_user uid (delete_user uid s).2 =
        (.error .NotFound, (delete_user uid s).2)) ∧
    (∀ (eid : Nat) (s : Store), (∀ f ∈ s.embeddings, f.id ≠ eid) →
      delete_embedding eid s = (.error .NotFound, s)) ∧
    (∀ (eid : Nat) (s : Store) (e : EmbeddingRecord),
      s.embeddings.find? (fun f => f.id == eid) = some e →
      (delete_embedding eid s).1 = .ok e ∧
      read_embedding eid (delete_embedding eid s).2 =
        (.error .NotFound, (delete_embedding eid s).2)) := by
  refine ⟨?_, ?_, ?_, ?_⟩
  · intro uid s h
    unfold delete_user
    rw [List.find?_eq_none.mpr (fun x hx => by simpa using h x hx)]
  · intro uid s u hfind
    rw [delete_user_found uid s u hfind]
    refine ⟨rfl, ?_⟩
    exact read_user_eq_none _ _
      (find?_filter_compl _ _ _ (fun x hx => by simp [bne]; simpa using hx))
  · intro eid s h
    unfold delete_embedding
    rw [List.find?_eq_none.mpr (fun x hx => by simpa using h x hx)]
  · intro eid s e hfind
    rw [delete_embedding_found eid s e hfind]
    refine ⟨rfl, ?_⟩
    exact read_embedding_eq_none _ _
      (find?_filter_compl _ _ _ (fun x hx => by simp [bne]; simpa using hx))

/-- Closed instance of `delete_semantics`: deleting absent id 2 reports
not-found; deleting present id 1 returns the stored record and an
immediate lookup of id 1 afterwards reports not-found, for both kinds. -/
theorem delete_semantics_witness :
    delete_user 2 (Store.mk 0 [UserRecord.mk 1 "n" "e" "p" "b" 0] []) =
      (.error .NotFound, Store.mk 0 [UserRecord.mk 1 "n" "e" "p" "b" 0] []) ∧
    (delete_user 1 (Store.mk 0 [UserRecord.mk 1 "n" "e" "p" "b" 0] [])).1 =
      .ok (UserRecord.mk 1 "n" "e" "p" "b" 0) ∧
    read_user 1 (Store.mk 0 [] []) = (.error .NotFound, Store.mk 0 [] []) ∧
    (delete_embedding 1 (Store.mk 0 [] [EmbeddingRecord.mk 1 7 []])).1 =
      .ok (EmbeddingRecord.mk 1 7 []) := by
  refine ⟨?_, ?_, ?_, ?_⟩
  · exact delete_semantics.1 2 (Store.mk 0 [UserRecord.mk 1 "n" "e" "p" "b" 0] [])
      (by decide)
  · exact (delete_semantics.2.1 1 (Store.mk 0 [UserRecord.mk 1 "n" "e" "p" "b" 0] [])
      (UserRecord.mk 1 "n" "e" "p" "b" 0) rfl).1
  · exact (delete_semantics.2.1 1 (Store.mk 0 [UserRecord.mk 1 "n" "e" "p" "b" 0] [])
      (UserRecord.mk 1 "n" "e" "p" "b" 0) rfl).2
  · exact (delete_semantics.2.2.2 1 (Store.mk 0 [] [EmbeddingRecord.mk 1 7 []])
      (EmbeddingRecord.mk 1 7 []) rfl).1

/-- C7: listing returns the stored rows in insertion (rowid) order with
the first `skip` omitted and at most `limit` returned, with no
filtering: the i-th returned row is exactly the (skip+i)-th stored row
whenever i < limit, and nothing beyond; omitted bounds default to
skip = 0 and limit = 100, so a default listing returns at most 100
rows.  This holds for both entity kinds. -/
theorem list_pagination (s : Store) (sk li : Nat) :
    ((read_users (some sk) (some li) s).1.length ≤ li ∧
     (∀ i, (read_users (some sk) (some li) s).1[i]? =
        if i < li then s.users[sk + i]? else none) ∧
     read_users none none s = read_users (some 0) (some 100) s ∧
     (read_users none none s).1.length ≤ 100) ∧
    ((read_embeddings (some sk) (some li) s).1.length ≤ li ∧
     (∀ i, (read_embeddings (some sk) (some li) s).1[i]? =
        if i < li then s.embeddings[sk + i]? else none) ∧
     read_embeddings none none s = read_embeddings (some 0) (some 100) s ∧
     (read_embeddings none none s).1.length ≤ 100) := by
  refine ⟨⟨?_, ?_, rfl, ?_⟩, ?_, ?_, rfl, ?_⟩
  · simp [read_users, List.length_take]
  · intro i
    simp [read_users, List.getElem?_take, List.getElem?_drop]
  · simp [read_users, List.length_take]
  · simp [read_embeddings, List.length_take]
  · intro i
    simp [read_embeddings, List.getElem?_take, List.getElem?_drop]
  · simp [read_embeddings, List.length_take]

/-- A fresh user insert preserves the storage-layer uniqueness state. -/
theorem storeInv_create_user (req : UserCreate) (now : Nat) (s : Store)
    (h : storeInv s) : storeInv (create_user req now s).2 := by
  unfold create_user
  split
  · exact h
  · next hcond =>
    rw [Bool.not_eq_true] at hcond
    unfold storeInv usersInv at h ⊢
    rw [List.pairwise_append]
    refine ⟨h, List.pairwise_singleton _ _, ?_⟩
    intro a ha b hb
    rw [List.mem_singleton] at hb
    subst hb
    have hfresh := List.any_eq_false.mp hcond a ha
    simp only [Bool.or_eq_true, beq_iff_eq, not_or] at hfresh
    exact ⟨nextUserId_fresh s a ha, hfresh.1, hfresh.2⟩

/-- A truthy-only user update preserves the storage-layer uniqueness
state: the commit succeeds only when the updated row collides with no
other row, and all other rows are untouched. -/
theorem storeInv_update_user (uid : Nat) (req : UserCreate) (s : Store)
    (h : storeInv s) : storeInv (update_user uid req s).2 := by
  cases hfind : s.users.find? (fun v => v.id == uid) with
  | none => unfold update_user; rw [hfind]; exact h
  | some u =>
    rw [update_user_found uid req s u hfind]
    split
    · exact h
    · next hcond =>
      rw [Bool.not_eq_true] at hcond
      have hid : u.id = uid := by simpa using List.find?_some hfind
      have hguard : ∀ v ∈ s.users, v.id ≠ u.id →
          v.email ≠ (applyUserUpdate u req).email ∧
          v.phone ≠ (applyUserUpdate u req).phone := by
        intro v hv hne
        have hv2 := List.any_eq_false.mp hcond v hv
        simp only [Bool.and_eq_true, bne_iff_ne, Bool.or_eq_true, beq_iff_eq,
          not_and, not_or] at hv2
        exact hv2 hne
      have hupdid : (applyUserUpdate u req).id = uid := by
        simp [applyUserUpdate, hid]
      unfold storeInv usersInv at h ⊢
      show List.Pairwise _ (s.users.map _)
      rw [List.pairwise_map]
      refine List.Pairwise.imp_of_mem ?_ h
      intro a b ha hb hr
      obtain ⟨hrid, hrem, hrph⟩ := hr
      by_cases hA : a.id = uid
      · by_cases hB : b.id = uid
        · exact absurd (hA.trans hB.symm) hrid
        · rw [if_pos (beq_iff_eq.mpr hA), if_neg (by simp [hB])]
          have hg := hguard b hb (by rw [hid]; exact hB)
          refine ⟨?_, fun he => hg.1 he.symm, fun hp => hg.2 hp.symm⟩
          rw [hupdid]
          exact fun hx => hB hx.symm
      · by_cases hB : b.id = uid
        · rw [if_neg (by simp [hA]), if_pos (beq_iff_eq.mpr hB)]
          have hg := hguard a ha (by rw [hid]; exact hA)
          refine ⟨?_, hg.1, hg.2⟩
          rw [hupdid]
          exact hA
        · rw [if_neg (by simp [hA]), if_neg (by simp [hB])]
          exact ⟨hrid, hrem, hrph⟩

/-- Deleting a user row preserves the storage-layer uniqueness state. -/
theorem storeInv_delete_user (uid : Nat) (s : Store) (h : storeInv s) :
    storeInv (delete_user uid s).2 := by
  unfold delete_user
  cases hfind : s.users.find? (fun v => v.id == uid) with
  | none => exact h
  | some u =>
    unfold storeInv usersInv at h ⊢
    exact List.Pairwise.sublist (List.filter_sublist _) h

/-- C4: the uniqueness invariant on Users — no two rows share an email
and no two share a phone (maintained together with distinctness of the
primary-key ids, which the storage layer also enforces) — holds in the
empty store and is preserved by every Record Store operation of either
entity kind that completes. -/
theorem store_invariant_preserved :
    (∀ t, storeInv (emptyStore t)) ∧
    (∀ req now s, storeInv s → storeInv (create_user req now s).2) ∧
    (∀ i s, storeInv s → storeInv (read_user i s).2) ∧
    (∀ sk li s, storeInv s → storeInv (read_users sk li s).2) ∧
    (∀ uid req s, storeInv s → storeInv (update_user uid req s).2) ∧
    (∀ uid s, storeInv s → storeInv (delete_user uid s).2) ∧
    (∀ req s, storeInv s → storeInv (create_embedding req s).2) ∧
    (∀ i s, storeInv s → storeInv (read_embedding i s).2) ∧
    (∀ sk li s, storeInv s → storeInv (read_embeddings sk li s).2) ∧
    (∀ eid req s, storeInv s → storeInv (update_embedding eid req s).2) ∧
    (∀ eid s, storeInv s → storeInv (delete_embedding eid s).2) := by
  refine ⟨?_, storeInv_create_user, ?_, ?_, storeInv_update_user,
    storeInv_delete_user, ?_, ?_, ?_, ?_, ?_⟩
  · intro t
    exact List.Pairwise.nil
  · intro i s h
    unfold read_user
    cases s.users.find? (fun v => v.id == i) <;> exact h
  · intro sk li s h
    exact h
  · intro req s h
    exact h
  · intro i s h
    unfold read_embedding
    cases s.embeddings.find? (fun f => f.id == i) <;> exact h
  · intro sk li s h
    exact h
  · intro eid req s h
    unfold update_embedding
    cases s.embeddings.find? (fun f => f.id == eid) with
    | none => exact h
    | some e => cases req.embedding_vector.isEmpty <;> exact h
  · intro eid s h
    unfold delete_embedding
    cases s.embeddings.find? (fun f => f.id == eid) <;> exact h

/-- Closed instance of `store_invariant_preserved`: the invariant holds
after creating a user in the empty store, and after an update that
overwrites email and phone in a singleton store. -/
theorem store_invariant_preserved_witness :
    storeInv (create_user (UserCreate.mk "x" "e" "p" "b") 0 (emptyStore 0)).2 ∧
    storeInv (update_user 1 (UserCreate.mk "" "e2" "p2" "")
      (Store.mk 0 [UserRecord.mk 1 "n" "e" "p" "b" 0] [])).2 := by
  constructor
  · exact store_invariant_preserved.2.1 (UserCreate.mk "x" "e" "p" "b") 0
      (emptyStore 0) List.Pairwise.nil
  · exact store_invariant_preserved.2.2.2.2.1 1 (UserCreate.mk "" "e2" "p2" "")
      (Store.mk 0 [UserRecord.mk 1 "n" "e" "p" "b" 0] [])
      (List.pairwise_singleton _ _)
